import Mathlib

/-!
Verification of the asset-transformation core (`Transformation.js` and the
public `Asset` views) against its natural-language specification.

The JavaScript source is shallowly embedded: each JS function that a claim
touches is translated into an executable Lean definition; mutable object
state is made explicit (pipeline slot state, driver cache state); async
functions that can throw are modelled in `Except`; external collaborators
(`md5*` hashing, `URL.parse`/`URL.format`, `isURL`, plugin config loading)
are taken as parameters, since only their observable use matters here.
-/

namespace Parcel

/-! ## ContentSource: `summarizeRequest` (Transformation.js, lines 493-532)

A file is read once as a stream of chunks.  The `TapStream` callback adds
each chunk's length to `size` and, while `content` is still a buffer,
either appends the chunk or — when the cumulative size passes
`BUFFER_LIMIT` — discards the buffer and replaces it with a re-openable
stream over the original path.  The md5 hash is computed over the full
piped stream regardless.  Bytes are modelled as `Nat`, chunks as
`List Nat`, and the hash function is a parameter. -/

/-- `const BUFFER_LIMIT = 5000000; // 5mb` -/
def BUFFER_LIMIT : Nat := 5000000

/-- The `content` slot of a summarized request: an in-memory buffer, a
re-openable stream over a file path, or (for inline-code requests) the
code string itself. -/
inductive Content where
  | buffer (bytes : List Nat)
  | stream (filePath : String)
  | strContent (code : String)
  deriving Repr, DecidableEq

/-- Accumulator of the `TapStream` callback in `summarizeRequest`. -/
structure SummarizeAcc where
  content : Content
  size : Nat
  deriving Repr, DecidableEq

/-- One invocation of the `TapStream` callback: `size += buf.length`
always; if `content` is still a `Buffer`, either switch to a stream
(when the new size exceeds `BUFFER_LIMIT`) or append the chunk. -/
def tapChunk (filePath : String) (acc : SummarizeAcc) (chunk : List Nat) : SummarizeAcc :=
  let size := acc.size + chunk.length
  match acc.content with
  | Content.buffer bytes =>
      if size > BUFFER_LIMIT then
        { content := Content.stream filePath, size := size }
      else
        { content := Content.buffer (bytes ++ chunk), size := size }
  | _ => { acc with size := size }

/-- Result record of `summarizeRequest`. -/
structure Summary where
  content : Content
  hash : String
  size : Nat
  deriving Repr, DecidableEq

/-- The file branch of `summarizeRequest` (`req.code == null`): fold the
tap over the chunk stream; the hash is md5 of the whole piped stream
(`hashFn` applied to the concatenation of all chunks). -/
def summarizeFile (hashFn : List Nat → String) (filePath : String)
    (chunks : List (List Nat)) : Summary :=
  let acc := chunks.foldl (tapChunk filePath) { content := Content.buffer [], size := 0 }
  { content := acc.content, hash := hashFn chunks.flatten, size := acc.size }

/-- A transformation request, as far as `summarizeRequest` consumes it. -/
structure SummarizeReq where
  filePath : String
  code : Option String
  deriving Repr, DecidableEq

/-- `summarizeRequest`: inline code is hashed directly and kept as the
content; a file path goes through the streaming tap.  `strHashFn` models
`md5FromString`, `strLen` models `Buffer.from(code).length`. -/
def summarizeRequest (hashFn : List Nat → String) (strHashFn : String → String)
    (strLen : String → Nat) (req : SummarizeReq) (chunks : List (List Nat)) : Summary :=
  match req.code with
  | some code =>
      { content := Content.strContent code, hash := strHashFn code, size := strLen code }
  | none => summarizeFile hashFn req.filePath chunks

/-- Invariant of the tap fold: the size is the total length seen so far
and the content is a buffer of everything seen iff that total is within
`BUFFER_LIMIT`, otherwise the re-openable stream. -/
lemma tapChunk_foldl (filePath : String) (chunks : List (List Nat)) :
    chunks.foldl (tapChunk filePath) { content := Content.buffer [], size := 0 } =
      { content :=
          if chunks.flatten.length ≤ BUFFER_LIMIT then Content.buffer chunks.flatten
          else Content.stream filePath,
        size := chunks.flatten.length } := by
  suffices h : ∀ (cs : List (List Nat)) (bs : List Nat),
      bs.length ≤ BUFFER_LIMIT →
      cs.foldl (tapChunk filePath) { content := Content.buffer bs, size := bs.length } =
        { content :=
            if bs.length + cs.flatten.length ≤ BUFFER_LIMIT then
              Content.buffer (bs ++ cs.flatten)
            else Content.stream filePath,
          size := bs.length + cs.flatten.length } by
    have h0 := h chunks [] (by simp [BUFFER_LIMIT])
    simpa using h0
  intro cs
  induction cs with
  | nil => intro bs hbs; simp [hbs]
  | cons c cs ih =>
    intro bs hbs
    by_cases hc : bs.length + c.length ≤ BUFFER_LIMIT
    · have step : tapChunk filePath { content := Content.buffer bs, size := bs.length } c =
          { content := Content.buffer (bs ++ c), size := bs.length + c.length } := by
        simp [tapChunk, Nat.not_lt.mpr hc]
      have ih' := ih (bs ++ c) (by simpa using hc)
      simp only [List.foldl_cons, step]
      rw [show (bs ++ c).length = bs.length + c.length by simp] at ih'
      rw [ih']
      simp [List.append_assoc, Nat.add_assoc]
    · have step : tapChunk filePath { content := Content.buffer bs, size := bs.length } c =
          { content := Content.stream filePath, size := bs.length + c.length } := by
        simp [tapChunk, Nat.lt_of_not_le hc]
      have tail : ∀ (ds : List (List Nat)) (n : Nat),
          ds.foldl (tapChunk filePath) { content := Content.stream filePath, size := n } =
            { content := Content.stream filePath, size := n + ds.flatten.length } := by
        intro ds
        induction ds with
        | nil => intro n; simp
        | cons d ds ihd =>
          intro n
          simp only [List.foldl_cons, tapChunk]
          rw [ihd]
          simp [Nat.add_assoc]
      simp only [List.foldl_cons, step, tail]
      have hcond : ¬ (bs.length + (c.length + (List.map List.length cs).sum) ≤ BUFFER_LIMIT) := by
        omega
      simp [hcond, Nat.add_assoc]

/-- Characterization of the file branch of `summarizeRequest`. -/
lemma summarizeFile_eq (hashFn : List Nat → String) (filePath : String)
    (chunks : List (List Nat)) :
    summarizeFile hashFn filePath chunks =
      { content :=
          if chunks.flatten.length ≤ BUFFER_LIMIT then Content.buffer chunks.flatten
          else Content.stream filePath,
        hash := hashFn chunks.flatten,
        size := chunks.flatten.length } := by
  simp [summarizeFile, tapChunk_foldl]

/-! ## Path utilities (`loadNextPipeline`, Transformation.js lines 274-288)

`path.extname` for separator-free paths (all paths in this module are
used as opaque names; the claims only exercise plain file names): the
extension starts at the last `.`, unless there is no dot, the last dot is
the first character of the name, or the name is `..`. -/

/-- Index of the last occurrence of `.` in a character list. -/
def lastDotFrom : List Char → Option Nat
  | [] => none
  | c :: cs =>
      match lastDotFrom cs with
      | some i => some (i + 1)
      | none => if c = '.' then some 0 else none

/-- Node's `path.extname` restricted to separator-free paths. -/
def extname (s : String) : String :=
  match lastDotFrom s.toList with
  | none => ""
  | some i =>
      if i = 0 then ""
      else if s = ".." then ""
      else String.mk (s.toList.drop i)

/-- The synthetic next file path from `loadNextPipeline`:
`filePath.slice(0, -path.extname(filePath).length) + '.' + nextType`.
JavaScript's `slice(0, -0)` is `slice(0, 0)`, i.e. the empty string, so a
path with no extension loses its entire stem. -/
def nextFilePath (filePath : String) (nextType : String) : String :=
  (if (extname filePath).length = 0 then ""
   else String.mk (filePath.toList.take (filePath.toList.length - (extname filePath).length)))
    ++ "." ++ nextType

/-- Follows the claim's words, for comparison with `nextFilePath`: "the
original path with its extension replaced by the new type" — the stem
(path minus extension) followed by a dot and the new type. -/
def replaceExtClaim (filePath : String) (nextType : String) : String :=
  String.mk (filePath.toList.take (filePath.toList.length - (extname filePath).length))
    ++ "." ++ nextType

/-! ## Data model: assets, transformer results, transformers

`InternalAsset` (`Asset.js`) is not among the provided sources; the
fields the pipeline reads and writes are modelled from the spec's data
model (§3).  ASTs are opaque values, modelled as `Nat`. -/

/-- The mutable per-asset record, as the pipeline observes it. -/
structure Asset where
  id : String
  filePath : String
  type : String
  hash : Option String
  content : String
  ast : Option Nat
  map : Option Nat
  deriving Repr, DecidableEq

/-- Output of a transformer's `generate` hook. -/
structure GenerateOutput where
  code : String
  map : Option Nat
  deriving Repr, DecidableEq

/-- A normalized `TransformerResult`, as far as the pipeline consumes it. -/
structure TResult where
  type : String
  content : String
  ast : Option Nat
  deriving Repr, DecidableEq

/-- A transformer stage: the optional capability set of the transformer
contract.  Hooks are total functions on the model; absence is `Option`. -/
structure Transformer where
  canReuseAST : Option (Nat → Bool)
  parse : Option (Asset → Nat)
  transform : Asset → List TResult
  generate : Option (Asset → GenerateOutput)
  postProcess : Option (List Asset → List TResult)

/-- Modelled from the spec: `InternalAsset.createChildAsset` lives in
`Asset.js`, which is not among the provided sources.  Per §4.2 of the
spec, the child's `idBase` is the parent's id combined with the child's
type, `filePath` (and environment) are inherited, and content/ast are
taken from the transformer's result; the spec does not assign the child
a content hash, so `hash` is left empty. -/
def createChildAsset (parent : Asset) (r : TResult) : Asset :=
  { id := parent.id ++ ":" ++ r.type
    filePath := parent.filePath
    type := r.type
    hash := none
    content := r.content
    ast := r.ast
    map := none }

/-- Errors a transformation can raise.  `astReuseMismatch` is the thrown
`Error('Asset has an AST but no generate method is available on the
transform')`; `nullthrown` stands for the `nullthrows`/TypeError crashes;
`fuelExhausted` is the model's recursion bound. -/
inductive TError where
  | astReuseMismatch
  | nullthrown
  | fuelExhausted
  deriving Repr, DecidableEq

/-! ## Pipeline (Transformation.js lines 321-491)

The pipeline object's mutable slots `this.generate` and
`this.postProcess` are made explicit as `PState`.  The `generate` slot is
a closure over the transformer that most recently ran (it throws when
that transformer has no `generate` hook); the `postProcess` slot is a
closure over the transformer and the asset in whose `runTransformer` call
it was installed. -/

/-- The pipeline's mutable slot state: `this.generate` (the transformer
captured by the remembered closure) and `this.postProcess` (transformer
and captured asset). -/
structure PState where
  genSlot : Option Transformer
  postSlot : Option (Transformer × Asset)

/-- Invoking `this.generate`: the closure calls the captured
transformer's `generate` when present and otherwise throws
`Error('Asset has an AST but no generate method is available on the
transform')`.  Calling an unset slot would be a TypeError; the source
always guards on truthiness first, so that branch is `nullthrown`. -/
def callGenerate (slot : Option Transformer) (a : Asset) : Except TError GenerateOutput :=
  match slot with
  | none => Except.error TError.nullthrown
  | some t =>
      match t.generate with
      | some g => Except.ok (g a)
      | none => Except.error TError.astReuseMismatch

/-- AST reconciliation at the top of `runTransformer` (lines 410-419): if
the asset has an AST, the stage cannot reuse it (`canReuseAST` absent or
false), and `this.generate` is set, call the remembered generate, write
its code onto the asset and clear the AST.  Returns the updated asset and
the number of generate invocations performed (0 or 1). -/
def reconcileAST (st : PState) (asset : Asset) (t : Transformer) :
    Except TError (Asset × Nat) :=
  match asset.ast with
  | some astVal =>
      if (match t.canReuseAST with
          | none => true
          | some can => ! can astVal) = true then
        match st.genSlot with
        | none => Except.ok (asset, 0)
        | some _ =>
            match callGenerate st.genSlot asset with
            | Except.ok out =>
                Except.ok ({ asset with content := out.code, ast := none }, 1)
            | Except.error e => Except.error e
      else Except.ok (asset, 0)
  | none => Except.ok (asset, 0)

/-- The parse step of `runTransformer` (lines 421-429): parse only when
no AST is present and the stage provides `parse`. -/
def parseStep (asset : Asset) (t : Transformer) : Asset :=
  match asset.ast, t.parse with
  | none, some p => { asset with ast := some (p asset) }
  | _, _ => asset

/-- The slot updates at the bottom of `runTransformer` (lines 442-475):
`this.generate` is re-bound to the current transformer unconditionally;
`this.postProcess` is re-bound (capturing the transformer and the current
asset) only when the transformer provides `postProcess`. -/
def advanceSlots (st : PState) (t : Transformer) (asset : Asset) : PState :=
  { genSlot := some t
    postSlot :=
      match t.postProcess with
      | some _ => some (t, asset)
      | none => st.postSlot }

/-- `Pipeline.runTransformer` (lines 382-478): reconcile the AST, parse
if needed, run `transform`, then update the slots.  Returns the asset as
the stage observed it, the transformer's results, the new slot state, and
the number of remembered-generate invocations. -/
def runTransformer (st : PState) (asset : Asset) (t : Transformer) :
    Except TError (Asset × List TResult × PState × Nat) :=
  match reconcileAST st asset t with
  | Except.error e => Except.error e
  | Except.ok (a1, calls) =>
      let a2 := parseStep a1 t
      Except.ok (a2, t.transform a2, advanceSlots st t a2, calls)

/-- One stage of `Pipeline.transform` over the working set (the inner
loop of lines 353-372): assets whose type diverged from the initial type
are set aside, the rest are run through the transformer and replaced by
their child assets.  Returns (diverged assets, resulting child assets,
new slot state). -/
def runStage (st : PState) (t : Transformer) (initialType : String) :
    List Asset → Except TError (List Asset × List Asset × PState)
  | [] => Except.ok ([], [], st)
  | a :: rest =>
      if a.type ≠ initialType then
        match runStage st t initialType rest with
        | Except.error e => Except.error e
        | Except.ok (div, res, st') => Except.ok (a :: div, res, st')
      else
        match runTransformer st a t with
        | Except.error e => Except.error e
        | Except.ok (a2, results, st', _) =>
            match runStage st' t initialType rest with
            | Except.error e => Except.error e
            | Except.ok (div, res, st'') =>
                Except.ok (div, results.map (createChildAsset a2) ++ res, st'')

/-- The stage loop of `Pipeline.transform` (lines 353-373): fold the
stages over the working set, accumulating diverged assets.  Returns the
accumulated diverged assets, the last stage's resulting assets, and the
final slot state. -/
def transformLoop (st : PState) (initialType : String) (finals : List Asset)
    (working : List Asset) :
    List Transformer → Except TError (List Asset × List Asset × PState)
  | [] => Except.ok (finals, working, st)
  | t :: ts =>
      match runStage st t initialType working with
      | Except.error e => Except.error e
      | Except.ok (div, res, st') => transformLoop st' initialType (finals ++ div) res ts

/-- `finalize` (lines 481-491): if the asset still carries an AST and a
generate closure exists, call it and write the emitted code and map onto
the asset (the AST itself is left in place). -/
def finalizeAsset (asset : Asset) (slot : Option Transformer) : Except TError Asset :=
  match asset.ast, slot with
  | some _, some _ =>
      match callGenerate slot asset with
      | Except.ok out => Except.ok { asset with content := out.code, map := out.map }
      | Except.error e => Except.error e
  | _, _ => Except.ok asset

/-- `Pipeline.transform` (lines 348-380): run the stage loop starting
from `[initialAsset]`, concatenate the diverged assets with the last
stage's results, and finalize each.  An empty transformer list leaves
`resultingAssets` undefined in the source and crashes in `nullthrows`. -/
def pipelineTransform (ts : List Transformer) (initialAsset : Asset) :
    Except TError (List Asset × PState) :=
  if ts.isEmpty then Except.error TError.nullthrown
  else
    match transformLoop { genSlot := none, postSlot := none }
        initialAsset.type [] [initialAsset] ts with
    | Except.error e => Except.error e
    | Except.ok (finals, lastRes, st) =>
        match (finals ++ lastRes).mapM (fun a => finalizeAsset a st.genSlot) with
        | Except.error e => Except.error e
        | Except.ok outs => Except.ok (outs, st)

/-! ## Transformation driver (Transformation.js lines 51-305)

The driver's observable state is made explicit: the artifact cache (an
association list keyed by the structured cache-key data — `md5FromObject`
is modelled as the injective packaging of the hashed structure), plus
logs of the side effects the claims talk about: `getCode` calls, asset
commits, and `pipeline.transform` invocations. -/

/-- A loaded config, as far as `getCacheKey` consumes it. -/
structure Config where
  resultHash : String
  devDeps : List String
  deriving Repr, DecidableEq

/-- A pipeline as the driver sees it: stage names (joined into the id),
the stages, and the configs bound to it. -/
structure Pipeline where
  names : List String
  transformers : List Transformer
  configs : List (String × Config)

/-- `this.id = names.join(':')` (line 331). -/
def Pipeline.pid (p : Pipeline) : String := String.intercalate ":" p.names

/-- The driver options and request fields consulted by the cache layer:
`options.cache`, `request.code`, `request.env` and the impactful options
(the latter two opaque). -/
structure Opts where
  cacheEnabled : Bool
  reqCode : Option String
  env : String
  impactfulOptions : String
  deriving Repr, DecidableEq

/-- The structured data hashed by `getCacheKey` (lines 207-228):
per-asset `(filePath, hash, type)`, per-config `(resultHash, devDeps)`,
the request environment and the impactful options. -/
structure CacheKey where
  assetsInfo : List (String × Option String × String)
  configsInfo : List (String × List String)
  env : String
  impactful : String
  deriving Repr, DecidableEq

/-- `getCacheKey` (lines 207-228). -/
def getCacheKey (opts : Opts) (assets : List Asset)
    (configs : List (String × Config)) : CacheKey :=
  { assetsInfo := assets.map (fun a => (a.filePath, a.hash, a.type))
    configsInfo := configs.map (fun c => (c.2.resultHash, c.2.devDeps))
    env := opts.env
    impactful := opts.impactfulOptions }

/-- The driver's observable state: the cache plus side-effect logs.  The
logs record asset ids: `getCodeLog` for `asset.getCode()` calls made by
`readFromCache`, `commitLog` for `asset.commit(...)` calls made by
`writeToCache`, and `transformLog` for the initial assets on which
`pipeline.transform` was invoked. -/
structure TState where
  cache : List (CacheKey × List Asset)
  getCodeLog : List String
  commitLog : List String
  transformLog : List String
  deriving Repr, DecidableEq

/-- `Transformation.readFromCache` (lines 179-193): a disabled cache or
an inline-code request short-circuits to a miss; on a hit, `getCode` is
called on each asset of the lookup argument (not on the cached assets). -/
def readFromCache (opts : Opts) (st : TState) (assets : List Asset)
    (configs : List (String × Config)) : Option (List Asset) × TState :=
  if opts.cacheEnabled = false ∨ opts.reqCode.isSome then (none, st)
  else
    let key := getCacheKey opts assets configs
    match st.cache.lookup key with
    | some cached =>
        (some cached, { st with getCodeLog := st.getCodeLog ++ assets.map (fun a => a.id) })
    | none => (none, st)

/-- `Transformation.writeToCache` (lines 195-205): commit every asset and
store the list under the key computed from those same assets. -/
def writeToCache (opts : Opts) (st : TState) (assets : List Asset)
    (configs : List (String × Config)) : TState :=
  { st with
    commitLog := st.commitLog ++ assets.map (fun a => a.id)
    cache := (getCacheKey opts assets configs, assets) :: st.cache }

/-- Invoking `pipeline.postProcess` (the closure installed at lines
459-475): call the captured transformer's `postProcess` hook and turn
each result into a child of the captured asset.  The slot is only ever
installed when the hook exists; the other branch models the declared
nullable return type. -/
def callPostProcess (slot : Transformer × Asset) (assets : List Asset) :
    Option (List Asset) :=
  match slot.1.postProcess with
  | some pp => some ((pp assets).map (createChildAsset slot.2))
  | none => none

/-- The post-process tail of `Transformation.runPipeline` (lines
159-176): look up the cache keyed over the finalized assets; on a miss,
invoke `postProcess` on the pre-dispatch `assets` list, default a null
result to `[]`, and write the processed list to the cache keyed over
itself. -/
def postPhase (opts : Opts) (st : TState) (configs : List (String × Config))
    (slot : Transformer × Asset) (assets finalAssets : List Asset) :
    List Asset × TState :=
  match readFromCache opts st finalAssets configs with
  | (some cached, st') => (cached, st')
  | (none, st') =>
      let processed := (callPostProcess slot assets).getD []
      (processed, writeToCache opts st' processed configs)

/-- The type-change dispatch loop of `Transformation.runPipeline` (lines
140-157) together with `loadNextPipeline` (lines 274-288), abstracted
over the recursive `runPipeline` call: an asset whose type diverged from
the initial type is re-run through the pipeline loaded for the synthetic
next file path, unless that pipeline's id equals the current one. -/
def dispatchWith
    (recur : TState → Pipeline → Asset → Except TError (List Asset × TState))
    (loadP : String → Pipeline) (pipeline : Pipeline)
    (initialType filePath : String) :
    TState → List Asset → Except TError (List Asset × TState)
  | st, [] => Except.ok ([], st)
  | st, a :: rest =>
      let next : Option Pipeline :=
        if a.type ≠ initialType then
          let np := loadP (nextFilePath filePath a.type)
          if np.pid = pipeline.pid then none else some np
        else none
      match next with
      | some np =>
          match recur st np a with
          | Except.error e => Except.error e
          | Except.ok (res, st') =>
              match dispatchWith recur loadP pipeline initialType filePath st' rest with
              | Except.error e => Except.error e
              | Except.ok (restRes, st'') => Except.ok (res ++ restRes, st'')
      | none =>
          match dispatchWith recur loadP pipeline initialType filePath st rest with
          | Except.error e => Except.error e
          | Except.ok (restRes, st'') => Except.ok (a :: restRes, st'')

/-- `Transformation.runPipeline` (lines 124-177), with a fuel bound on
the pipeline-switch recursion (the source recurses unboundedly).  On a
pre-pipeline cache hit the cached assets stand in for the transform
result and the pipeline's slots stay unset; on a miss `transform` runs
and its result is written to the cache keyed over that result. -/
def runPipeline (opts : Opts) (loadP : String → Pipeline) :
    Nat → TState → Pipeline → Asset → Except TError (List Asset × TState)
  | 0, _, _, _ => Except.error TError.fuelExhausted
  | fuel + 1, st, pipeline, initialAsset =>
      let initialType := initialAsset.type
      let firstRead := readFromCache opts st [initialAsset] pipeline.configs
      let afterFirst : Except TError (List Asset × Option (Transformer × Asset) × TState) :=
        match firstRead with
        | (some cached, st1) => Except.ok (cached, none, st1)
        | (none, st1) =>
            match pipelineTransform pipeline.transformers initialAsset with
            | Except.error e => Except.error e
            | Except.ok (assets, pst) =>
                let st2 := { st1 with transformLog := st1.transformLog ++ [initialAsset.id] }
                Except.ok (assets, pst.postSlot, writeToCache opts st2 assets pipeline.configs)
      match afterFirst with
      | Except.error e => Except.error e
      | Except.ok (assets, postSlot, st2) =>
          match dispatchWith (runPipeline opts loadP fuel) loadP pipeline initialType
              initialAsset.filePath st2 assets with
          | Except.error e => Except.error e
          | Except.ok (finalAssets, st3) =>
              match postSlot with
              | none => Except.ok (finalAssets, st3)
              | some slot =>
                  Except.ok (postPhase opts st3 pipeline.configs slot assets finalAssets)

/-! ## `MutableAsset.addURLDependency` (public/Asset.js lines 801-819)

`isURL`, `URL.parse`, `URL.format` and `decodeURIComponent` are external
collaborators (`@parcel/utils`, Node's `url` module and the JS runtime);
they are taken as parameters.  A parsed URL is its optional `pathname`
plus the rest of its components, which `URL.format` may consume. -/

/-- A parsed URL: the `pathname` component and the remaining components,
kept opaque. -/
structure ParsedURL where
  pathname : Option String
  rest : String
  deriving Repr, DecidableEq

/-- A dependency record as `addURLDependency` assembles it. -/
structure DepOptions where
  moduleSpecifier : String
  isURL : Bool
  isAsync : Bool
  deriving Repr, DecidableEq

/-- The `$Shape<DependencyOptions>` argument `opts`: any subset of the
dependency fields, spread *after* the defaults and therefore overriding
them. -/
structure DepOptsPatch where
  moduleSpecifier : Option String := none
  isURL : Option Bool := none
  isAsync : Option Bool := none
  deriving Repr, DecidableEq

/-- The object literal `{moduleSpecifier: decodeURIComponent(pathname),
isURL: true, isAsync: true, ...opts}`: each explicit `opts` field wins
over the written defaults. -/
def mergedDepOpts (decodeComp : String → String) (pathname : String)
    (opts : DepOptsPatch) : DepOptions :=
  { moduleSpecifier := opts.moduleSpecifier.getD (decodeComp pathname)
    isURL := opts.isURL.getD true
    isAsync := opts.isAsync.getD true }

/-- Modelled from the spec: `InternalAsset.addDependency` lives in
`Asset.js`, which is not among the provided sources.  Per §4.2/§3 of the
spec it appends one dependency record to the asset's ordered dependency
list and returns the new dependency's id; the id derivation is opaque
and taken as the parameter `idOf`. -/
def addDependency (idOf : DepOptions → String) (deps : List DepOptions)
    (d : DepOptions) : String × List DepOptions :=
  (idOf d, deps ++ [d])

/-- `MutableAsset.addURLDependency` (lines 801-819): absolute URLs and
URLs without a pathname are returned unchanged; otherwise one dependency
is added and the URL is re-serialized with its pathname replaced by the
dependency's id.  Returns the result string and the new dependency
list. -/
def addURLDependency (isURLFn : String → Bool) (urlParse : String → ParsedURL)
    (urlFormat : ParsedURL → String) (decodeComp : String → String)
    (idOf : DepOptions → String) (deps : List DepOptions) (url : String)
    (opts : DepOptsPatch) : String × List DepOptions :=
  if isURLFn url then (url, deps)
  else
    let parsed := urlParse url
    match parsed.pathname with
    | none => (url, deps)
    | some pathname =>
        let d := mergedDepOpts decodeComp pathname opts
        let (depId, deps') := addDependency idOf deps d
        (urlFormat { parsed with pathname := some depId }, deps')

/-- The driver state only grows: the cache gains entries at the front,
and the commit and transform logs gain entries at the back.  Used to
carry cache writes and logged side effects through the rest of a run. -/
def stateGrows (st st' : TState) : Prop :=
  (∃ l, st'.cache = l ++ st.cache) ∧
  (∃ l, st'.commitLog = st.commitLog ++ l) ∧
  (∃ l, st'.transformLog = st.transformLog ++ l)

/-! ## Concrete fixtures

Small concrete assets, transformers, pipelines and states used to
instantiate the theorems below on closed inputs. -/

/-- The empty driver state. -/
def stEmpty : TState :=
  { cache := [], getCodeLog := [], commitLog := [], transformLog := [] }

/-- Options with the cache disabled. -/
def optsNoCache : Opts :=
  { cacheEnabled := false, reqCode := none, env := "e", impactfulOptions := "i" }

/-- Options with the cache enabled and no inline code. -/
def optsCache : Opts :=
  { cacheEnabled := true, reqCode := none, env := "e", impactfulOptions := "i" }

/-- A transformer that copies the asset into a single same-typed result. -/
def tIdent : Transformer :=
  { canReuseAST := none
    parse := none
    transform := fun a => [{ type := a.type, content := a.content, ast := a.ast }]
    generate := none
    postProcess := none }

/-- A transformer that consumes every asset, returning no results. -/
def tEmpty : Transformer :=
  { canReuseAST := none
    parse := none
    transform := fun _ => []
    generate := none
    postProcess := none }

/-- A one-stage pipeline named `tsx`. -/
def pTs : Pipeline := { names := ["tsx"], transformers := [tIdent], configs := [] }

/-- A one-stage pipeline named `jsx`, with a different id than `pTs`. -/
def pJs : Pipeline := { names := ["jsx"], transformers := [tIdent], configs := [] }

/-- A concrete `ts` asset. -/
def assetTs : Asset :=
  { id := "a1", filePath := "a.ts", type := "ts", hash := some "h1"
    content := "c1", ast := none, map := none }

/-- A concrete `js` asset (type diverged from `ts`). -/
def assetJs : Asset :=
  { id := "a2", filePath := "a.ts", type := "js", hash := some "h2"
    content := "c2", ast := none, map := none }

/-- A transformer whose `generate` prefixes the asset's content. -/
def tGen : Transformer :=
  { canReuseAST := none
    parse := none
    transform := fun a => [{ type := a.type, content := a.content, ast := a.ast }]
    generate := some (fun a => { code := "G:" ++ a.content, map := none })
    postProcess := none }

/-- A transformer that accepts any AST for reuse. -/
def tReuse : Transformer :=
  { canReuseAST := some (fun _ => true)
    parse := some (fun _ => 99)
    transform := fun a => [{ type := a.type, content := a.content, ast := a.ast }]
    generate := none
    postProcess := none }

/-- A transformer that declares no `canReuseAST` but can parse. -/
def tNoReuse : Transformer :=
  { canReuseAST := none
    parse := some (fun _ => 99)
    transform := fun a => [{ type := a.type, content := a.content, ast := a.ast }]
    generate := none
    postProcess := none }

/-- A concrete asset carrying an AST. -/
def assetAst : Asset :=
  { id := "a3", filePath := "a.ts", type := "ts", hash := none
    content := "old", ast := some 7, map := none }

/-- A transformer that duplicates the asset into two same-typed results. -/
def tDup : Transformer :=
  { canReuseAST := none
    parse := none
    transform := fun a => [{ type := a.type, content := "dup", ast := none },
      { type := a.type, content := "dup", ast := none }]
    generate := none
    postProcess := none }

/-- A one-stage pipeline around `tDup`. -/
def pDup : Pipeline := { names := ["dup"], transformers := [tDup], configs := [] }

/-- A transformer with a `postProcess` hook that replaces the asset set
by one `css`-typed result. -/
def tPost : Transformer :=
  { canReuseAST := none
    parse := none
    transform := fun a => [{ type := a.type, content := a.content, ast := none }]
    generate := none
    postProcess := some (fun _ => [{ type := "css", content := "pp", ast := none }]) }

/-- The child `tIdent` produces from `assetTs`. -/
def childTs : Asset :=
  { id := "a1:ts", filePath := "a.ts", type := "ts", hash := none
    content := "c1", ast := none, map := none }

/-- The child `tDup` produces (twice) from `assetTs`. -/
def childDup : Asset :=
  { id := "a1:ts", filePath := "a.ts", type := "ts", hash := none
    content := "dup", ast := none, map := none }

/-- The child `tPost`'s postProcess produces from `assetTs`. -/
def childCss : Asset :=
  { id := "a1:css", filePath := "a.ts", type := "css", hash := none
    content := "pp", ast := none, map := none }

/-- A driver state pre-seeded so that the key for `[assetTs]` maps to the
distinct asset `[assetJs]`. -/
def stHit : TState :=
  { cache := [(getCacheKey optsCache [assetTs] [], [assetJs])]
    getCodeLog := [], commitLog := [], transformLog := [] }

/-- A driver state pre-seeded so that the key for `[assetTs]` maps to a
same-typed cached asset list. -/
def stHitTs : TState :=
  { cache := [(getCacheKey optsCache [assetTs] [], [childDup])]
    getCodeLog := [], commitLog := [], transformLog := [] }

/-- The final state of the cache-disabled one-stage run of `pTs` over
`assetTs`. -/
def stF6 : TState :=
  { cache := [(getCacheKey optsNoCache [childTs] [], [childTs])]
    getCodeLog := [], commitLog := ["a1:ts"], transformLog := ["a1"] }

/-- The final state of the cache-enabled one-stage run of `pDup` over
`assetTs`. -/
def stDup : TState :=
  { cache := [(getCacheKey optsCache [childDup, childDup] [], [childDup, childDup])]
    getCodeLog := [], commitLog := ["a1:ts", "a1:ts"], transformLog := ["a1"] }

/-! ## Theorems -/

/-- A single chunk larger than `BUFFER_LIMIT` yields a stream. -/
lemma summarizeFile_singleton_large (hashFn : List Nat → String) (fp : String)
    (c : List Nat) (h : BUFFER_LIMIT < c.length) :
    (summarizeFile hashFn fp [c]).content = Content.stream fp := by
  rw [summarizeFile_eq]
  simp only [List.flatten_cons, List.flatten_nil, List.append_nil]
  exact if_neg (Nat.not_le.mpr h)

/-- C3, counterexample: the claim's threshold of 5 MiB (5242880 bytes)
does not match the source's `BUFFER_LIMIT = 5000000`.  A 5000001-byte
file never exceeds 5 MiB cumulatively, yet `summarizeRequest` discards
the buffer and returns a re-openable stream over the path. -/
theorem c3_five_mib_counterexample :
    5000001 ≤ 5 * 1024 * 1024 ∧
    (summarizeRequest (fun _ => "h") (fun _ => "h") (fun _ => 0)
        { filePath := "big.js", code := none }
        [List.replicate 5000001 0]).content = Content.stream "big.js" := by
  refine ⟨by norm_num, ?_⟩
  exact summarizeFile_singleton_large (fun _ => "h") "big.js"
    (List.replicate 5000001 0)
    (by rw [List.length_replicate]; norm_num [BUFFER_LIMIT])

/-- C3 (amended: the buffering threshold is `BUFFER_LIMIT = 5000000`
bytes, not 5 MiB): for a request naming a file (no inline code), the
content is the fully materialized in-memory buffer of all bytes exactly
when the cumulative size (which peaks at the total) stays within
`BUFFER_LIMIT`, and it is a re-openable stream over the original path
exactly when the threshold is crossed. -/
theorem c3_buffer_iff_within_limit (hashFn : List Nat → String)
    (strHashFn : String → String) (strLen : String → Nat) (fp : String)
    (chunks : List (List Nat)) :
    ((summarizeRequest hashFn strHashFn strLen { filePath := fp, code := none }
        chunks).content = Content.buffer chunks.flatten ↔
      chunks.flatten.length ≤ BUFFER_LIMIT) ∧
    ((summarizeRequest hashFn strHashFn strLen { filePath := fp, code := none }
        chunks).content = Content.stream fp ↔
      BUFFER_LIMIT < chunks.flatten.length) := by
  show ((summarizeFile hashFn fp chunks).content = _ ↔ _) ∧
    ((summarizeFile hashFn fp chunks).content = _ ↔ _)
  rw [summarizeFile_eq]
  by_cases h : chunks.flatten.length ≤ BUFFER_LIMIT
  · simp [h, Nat.not_lt.mpr h]
  · simp [h, Nat.lt_of_not_le h]

/-- C4: the content hash computed by `summarizeRequest` for a file-backed
request is the hash of the full byte stream, and the reported size is the
full byte count, regardless of whether the buffering threshold was
crossed — both depend on the file's bytes alone. -/
theorem c4_hash_and_size_from_bytes (hashFn : List Nat → String)
    (strHashFn : String → String) (strLen : String → Nat) (fp : String)
    (chunks : List (List Nat)) :
    (summarizeRequest hashFn strHashFn strLen { filePath := fp, code := none }
        chunks).hash = hashFn chunks.flatten ∧
    (summarizeRequest hashFn strHashFn strLen { filePath := fp, code := none }
        chunks).size = chunks.flatten.length := by
  show (summarizeFile hashFn fp chunks).hash = _ ∧ (summarizeFile hashFn fp chunks).size = _
  rw [summarizeFile_eq]
  exact ⟨rfl, rfl⟩

/-- A string is empty iff its character count is zero. -/
lemma length_zero_iff_empty (s : String) : s.length = 0 ↔ s = "" := by
  constructor
  · intro h
    apply String.ext
    have hd : s.data.length = 0 := h
    simpa using List.length_eq_zero.mp hd
  · intro h
    subst h
    rfl

/-- C2, counterexample: for a path without an extension the source
computes `filePath.slice(0, -0)`, i.e. the empty string, so the synthetic
next path drops the stem entirely — it is not "the original path with its
extension replaced by the new type". -/
theorem c2_extensionless_counterexample :
    nextFilePath "README" "js" = ".js" ∧
    replaceExtClaim "README" "js" = "README.js" ∧
    nextFilePath "README" "js" ≠ replaceExtClaim "README" "js" := by
  refine ⟨by decide, by decide, by decide⟩

/-- C2 (amended: for originals whose extension is nonempty the synthetic
path is the original path with its extension replaced by the new type,
but an extensionless original yields just `"." ++ newType`, its stem
dropped): the dispatch loop carries assets of the initial type forward
unchanged, returns type-diverged assets untouched when the pipeline
loaded for the synthetic path has the same id, and otherwise replaces
them by the result of recursively running the new pipeline. -/
theorem c2_type_change_dispatch (opts : Opts) (loadP : String → Pipeline)
    (fuel : Nat) (p : Pipeline) (st : TState) (ity fp : String) (a : Asset)
    (rest : List Asset) (fp' t' : String) :
    (extname fp' ≠ "" → nextFilePath fp' t' = replaceExtClaim fp' t') ∧
    (extname fp' = "" → nextFilePath fp' t' = "." ++ t') ∧
    (a.type = ity →
      dispatchWith (runPipeline opts loadP fuel) loadP p ity fp st (a :: rest) =
        (dispatchWith (runPipeline opts loadP fuel) loadP p ity fp st rest).map
          (fun x => (a :: x.1, x.2))) ∧
    (a.type ≠ ity → (loadP (nextFilePath fp a.type)).pid = p.pid →
      dispatchWith (runPipeline opts loadP fuel) loadP p ity fp st (a :: rest) =
        (dispatchWith (runPipeline opts loadP fuel) loadP p ity fp st rest).map
          (fun x => (a :: x.1, x.2))) ∧
    (a.type ≠ ity → (loadP (nextFilePath fp a.type)).pid ≠ p.pid →
      dispatchWith (runPipeline opts loadP fuel) loadP p ity fp st (a :: rest) =
        match runPipeline opts loadP fuel st (loadP (nextFilePath fp a.type)) a with
        | Except.error e => Except.error e
        | Except.ok (res, st') =>
            (dispatchWith (runPipeline opts loadP fuel) loadP p ity fp st' rest).map
              (fun x => (res ++ x.1, x.2))) := by
  refine ⟨?_, ?_, ?_, ?_, ?_⟩
  · intro hext
    unfold nextFilePath replaceExtClaim
    rw [if_neg (fun h0 => hext ((length_zero_iff_empty _).mp h0))]
  · intro hext
    unfold nextFilePath
    simp [hext]
  · intro hty
    simp only [dispatchWith, hty, ne_eq, not_true_eq_false, if_false]
    cases h : dispatchWith (runPipeline opts loadP fuel) loadP p ity fp st rest with
    | error e => simp [Except.map]
    | ok x => cases x; simp [Except.map]
  · intro hty hid
    simp only [dispatchWith, ne_eq, hty, not_false_eq_true, if_true, hid, if_pos rfl]
    cases h : dispatchWith (runPipeline opts loadP fuel) loadP p ity fp st rest with
    | error e => simp [Except.map]
    | ok x => cases x; simp [Except.map]
  · intro hty hid
    simp only [dispatchWith, ne_eq, hty, not_false_eq_true, if_true, if_neg hid]
    cases hr : runPipeline opts loadP fuel st (loadP (nextFilePath fp a.type)) a with
    | error e => simp
    | ok x =>
      cases x with
      | mk res st' =>
        simp only []
        cases h : dispatchWith (runPipeline opts loadP fuel) loadP p ity fp st' rest with
        | error e => simp [Except.map]
        | ok y => cases y; simp [Except.map]

/-- Witness for `c2_type_change_dispatch` at concrete inputs. -/
theorem c2_type_change_dispatch_witness :
    (nextFilePath "a.ts" "css" = replaceExtClaim "a.ts" "css") ∧
    (nextFilePath "README" "js" = "." ++ "js") ∧
    (dispatchWith (runPipeline optsNoCache (fun _ => pTs) 0) (fun _ => pTs) pTs
        "ts" "a.ts" stEmpty [assetTs] =
      (dispatchWith (runPipeline optsNoCache (fun _ => pTs) 0) (fun _ => pTs) pTs
          "ts" "a.ts" stEmpty []).map (fun x => (assetTs :: x.1, x.2))) ∧
    (dispatchWith (runPipeline optsNoCache (fun _ => pTs) 0) (fun _ => pTs) pTs
        "ts" "a.ts" stEmpty [assetJs] =
      (dispatchWith (runPipeline optsNoCache (fun _ => pTs) 0) (fun _ => pTs) pTs
          "ts" "a.ts" stEmpty []).map (fun x => (assetJs :: x.1, x.2))) ∧
    (dispatchWith (runPipeline optsNoCache (fun _ => pJs) 0) (fun _ => pJs) pTs
        "ts" "a.ts" stEmpty [assetJs] =
      match runPipeline optsNoCache (fun _ => pJs) 0 stEmpty
          ((fun _ => pJs) (nextFilePath "a.ts" assetJs.type)) assetJs with
      | Except.error e => Except.error e
      | Except.ok (res, st') =>
          (dispatchWith (runPipeline optsNoCache (fun _ => pJs) 0) (fun _ => pJs) pTs
              "ts" "a.ts" st' []).map (fun x => (res ++ x.1, x.2))) := by
  refine ⟨?_, ?_, ?_, ?_, ?_⟩
  · exact (c2_type_change_dispatch optsNoCache (fun _ => pTs) 0 pTs stEmpty "ts"
      "a.ts" assetTs [] "a.ts" "css").1 (by decide)
  · exact (c2_type_change_dispatch optsNoCache (fun _ => pTs) 0 pTs stEmpty "ts"
      "a.ts" assetTs [] "README" "js").2.1 (by decide)
  · exact (c2_type_change_dispatch optsNoCache (fun _ => pTs) 0 pTs stEmpty "ts"
      "a.ts" assetTs [] "x" "y").2.2.1 rfl
  · exact (c2_type_change_dispatch optsNoCache (fun _ => pTs) 0 pTs stEmpty "ts"
      "a.ts" assetJs [] "x" "y").2.2.2.1 (by decide) rfl
  · exact (c2_type_change_dispatch optsNoCache (fun _ => pJs) 0 pTs stEmpty "ts"
      "a.ts" assetJs [] "x" "y").2.2.2.2 (by decide) (by decide)

/-- C9: a transformer returning no results for an asset of the initial
type contributes nothing to the next working set (the stage behaves as if
the asset were absent), and once the working set is empty the remaining
stages are no-ops, so the pipeline's stage loop returns exactly the
previously diverged assets (which `Pipeline.transform` then finalizes). -/
theorem c9_empty_results_shrink_working_set (st st2 : PState) (t : Transformer)
    (ity : String) (a a2 : Asset) (rest finals : List Asset) (n : Nat)
    (ts : List Transformer) :
    (a.type = ity → runTransformer st a t = Except.ok (a2, [], st2, n) →
      runStage st t ity (a :: rest) = runStage st2 t ity rest) ∧
    transformLoop st ity finals [] ts = Except.ok (finals, [], st) := by
  constructor
  · intro hty hrun
    show (if a.type ≠ ity then _ else _) = _
    rw [if_neg (by simp [hty])]
    rw [hrun]
    cases h : runStage st2 t ity rest with
    | error e => simp [h]
    | ok x =>
      rcases x with ⟨div, res, st''⟩
      simp [h]
  · induction ts generalizing st finals with
    | nil => rfl
    | cons t' ts ih =>
      show (match runStage st t' ity [] with
        | Except.error e => Except.error e
        | Except.ok (div, res, st') => transformLoop st' ity (finals ++ div) res ts) =
        Except.ok (finals, [], st)
      show transformLoop st ity (finals ++ []) [] ts = Except.ok (finals, [], st)
      rw [List.append_nil]
      exact ih st finals

/-- Witness for `c9_empty_results_shrink_working_set`: a transformer that
returns no results consumes the asset, and the stage loop on an empty
working set returns the diverged assets untouched. -/
theorem c9_empty_results_witness :
    runStage { genSlot := none, postSlot := none } tEmpty "ts" [assetTs] =
      runStage { genSlot := some tEmpty, postSlot := none } tEmpty "ts" [] ∧
    transformLoop { genSlot := none, postSlot := none } "ts" [assetJs] []
        [tIdent, tIdent] =
      Except.ok ([assetJs], [], { genSlot := none, postSlot := none }) := by
  constructor
  · exact (c9_empty_results_shrink_working_set { genSlot := none, postSlot := none }
      { genSlot := some tEmpty, postSlot := none } tEmpty
      "ts" assetTs assetTs [] [] 0 []).1 rfl rfl
  · exact (c9_empty_results_shrink_working_set { genSlot := none, postSlot := none }
      { genSlot := none, postSlot := none } tIdent "ts" assetTs assetTs [] [assetJs] 0
      [tIdent, tIdent]).2

/-- C1: between two stages, when the asset carries stage i's AST and
stage i+1 accepts it (`canReuseAST` returns true), the remembered
generate closure is not invoked (0 calls) and stage i+1's `transform`
observes the asset — and in particular the AST — unchanged; when stage
i+1 declares no `canReuseAST` or it rejects the AST, and the prior
stage's `generate` hook exists, that generate runs exactly once, its
emitted code is written onto the asset, the AST is null before the parse
step, and a declared `parse` then stores a fresh AST. -/
theorem c1_ast_reuse_law (st : PState) (asset : Asset) (t gt : Transformer)
    (T : Nat) (hslot : st.genSlot = some gt) (hast : asset.ast = some T) :
    (∀ can, t.canReuseAST = some can → can T = true →
      runTransformer st asset t =
        Except.ok (asset, t.transform asset, advanceSlots st t asset, 0)) ∧
    (∀ g, gt.generate = some g →
      (t.canReuseAST = none ∨ ∃ can, t.canReuseAST = some can ∧ can T = false) →
      reconcileAST st asset t =
        Except.ok ({ asset with content := (g asset).code, ast := none }, 1) ∧
      runTransformer st asset t =
        Except.ok (parseStep { asset with content := (g asset).code, ast := none } t,
          t.transform (parseStep { asset with content := (g asset).code, ast := none } t),
          advanceSlots st t
            (parseStep { asset with content := (g asset).code, ast := none } t), 1) ∧
      (∀ p, t.parse = some p →
        parseStep { asset with content := (g asset).code, ast := none } t =
          { asset with
            content := (g asset).code,
            ast := some (p { asset with content := (g asset).code, ast := none }) })) := by
  constructor
  · intro can hcan htrue
    have hrec : reconcileAST st asset t = Except.ok (asset, 0) := by
      unfold reconcileAST
      rw [hast]
      simp [hcan, htrue]
    have hps : parseStep asset t = asset := by
      unfold parseStep
      rw [hast]
    unfold runTransformer
    rw [hrec]
    show Except.ok (parseStep asset t, t.transform (parseStep asset t),
      advanceSlots st t (parseStep asset t), 0) = _
    rw [hps]
  · intro g hg hcannot
    have hcond : (match t.canReuseAST with
        | none => true
        | some can => ! can T) = true := by
      rcases hcannot with h | ⟨can, hcan, hfalse⟩
      · rw [h]
      · rw [hcan]
        show (! can T) = true
        rw [hfalse]
        rfl
    have hrec : reconcileAST st asset t =
        Except.ok ({ asset with content := (g asset).code, ast := none }, 1) := by
      unfold reconcileAST callGenerate
      simp only [hast, hslot, hg, if_pos hcond]
    refine ⟨hrec, ?_, ?_⟩
    · unfold runTransformer
      rw [hrec]
    · intro p hp
      unfold parseStep
      rw [hp]

/-- Witness for `c1_ast_reuse_law` at concrete inputs: a reusing stage
leaves the AST alone with zero generate calls; a non-reusing stage
triggers one generate call, clears the AST, and reparses. -/
theorem c1_ast_reuse_law_witness :
    runTransformer { genSlot := some tGen, postSlot := none } assetAst tReuse =
      Except.ok (assetAst, tReuse.transform assetAst,
        advanceSlots { genSlot := some tGen, postSlot := none } tReuse assetAst, 0) ∧
    reconcileAST { genSlot := some tGen, postSlot := none } assetAst tNoReuse =
      Except.ok ({ assetAst with content := "G:old", ast := none }, 1) ∧
    parseStep { assetAst with content := "G:old", ast := none } tNoReuse =
      { assetAst with content := "G:old", ast := some 99 } := by
  have h := c1_ast_reuse_law { genSlot := some tGen, postSlot := none } assetAst
    tReuse tGen 7 rfl rfl
  have h2 := c1_ast_reuse_law { genSlot := some tGen, postSlot := none } assetAst
    tNoReuse tGen 7 rfl rfl
  refine ⟨h.1 (fun _ => true) rfl rfl, ?_, ?_⟩
  · exact (h2.2 (fun a => { code := "G:" ++ a.content, map := none }) rfl
      (Or.inl rfl)).1
  · exact (h2.2 (fun a => { code := "G:" ++ a.content, map := none }) rfl
      (Or.inl rfl)).2.2 (fun _ => 99) rfl

/-- Injectivity of `Except.ok` on pairs. -/
lemma exceptOk2_inj {ε α β : Type} {x x' : α} {y y' : β}
    (h : (Except.ok (x, y) : Except ε (α × β)) = Except.ok (x', y')) :
    x = x' ∧ y = y' := by
  injection h with htup
  injection htup with h1 h2
  exact ⟨h1, h2⟩

/-- Injectivity of `Except.ok` on triples. -/
lemma exceptOk3_inj {ε α β γ : Type} {x x' : α} {y y' : β} {z z' : γ}
    (h : (Except.ok (x, y, z) : Except ε (α × β × γ)) = Except.ok (x', y', z')) :
    x = x' ∧ y = y' ∧ z = z' := by
  injection h with htup
  injection htup with h1 hr
  injection hr with h2 h3
  exact ⟨h1, h2, h3⟩

/-- Injectivity of `Except.ok` on quadruples. -/
lemma exceptOk4_inj {ε α β γ δ : Type} {x x' : α} {y y' : β} {z z' : γ} {w w' : δ}
    (h : (Except.ok (x, y, z, w) : Except ε (α × β × γ × δ)) =
      Except.ok (x', y', z', w')) :
    x = x' ∧ y = y' ∧ z = z' ∧ w = w' := by
  injection h with htup
  injection htup with h1 hr
  injection hr with h2 hr2
  injection hr2 with h3 h4
  exact ⟨h1, h2, h3, h4⟩

/-- `runTransformer` always re-binds the generate slot to the stage that
just ran. -/
lemma runTransformer_genSlot (st : PState) (a : Asset) (t : Transformer)
    (a2 : Asset) (res : List TResult) (st' : PState) (n : Nat)
    (h : runTransformer st a t = Except.ok (a2, res, st', n)) :
    st'.genSlot = some t := by
  unfold runTransformer at h
  cases hr : reconcileAST st a t with
  | error e => rw [hr] at h; exact absurd h (by simp)
  | ok x =>
    rcases x with ⟨a1, calls⟩
    rw [hr] at h
    dsimp only at h
    rw [← (exceptOk4_inj h).2.2.1]
    rfl

/-- A stage leaves the generate slot either untouched (when it processed
no asset) or bound to itself. -/
lemma runStage_genSlot (t : Transformer) (ity : String) (l : List Asset) :
    ∀ (st : PState) (d r : List Asset) (st' : PState),
      runStage st t ity l = Except.ok (d, r, st') →
      st'.genSlot = st.genSlot ∨ st'.genSlot = some t := by
  induction l with
  | nil =>
    intro st d r st' h
    rw [← (exceptOk3_inj h).2.2]
    exact Or.inl rfl
  | cons a rest ih =>
    intro st d r st' h
    unfold runStage at h
    by_cases hty : a.type ≠ ity
    · rw [if_pos hty] at h
      cases hrest : runStage st t ity rest with
      | error e => rw [hrest] at h; exact absurd h (by simp)
      | ok x =>
        rcases x with ⟨div, res, st1⟩
        rw [hrest] at h
        dsimp only at h
        rw [← (exceptOk3_inj h).2.2]
        exact ih st div res st1 hrest
    · rw [if_neg hty] at h
      cases hrt : runTransformer st a t with
      | error e => rw [hrt] at h; exact absurd h (by simp)
      | ok x =>
        rcases x with ⟨a2, results, st1, n⟩
        rw [hrt] at h
        dsimp only at h
        cases hrest : runStage st1 t ity rest with
        | error e => rw [hrest] at h; exact absurd h (by simp)
        | ok y =>
          rcases y with ⟨div, res, st2⟩
          rw [hrest] at h
          dsimp only at h
          rw [← (exceptOk3_inj h).2.2]
          have h1 : st1.genSlot = some t := runTransformer_genSlot st a t a2 results st1 n hrt
          rcases ih st1 div res st2 hrest with h2 | h2
          · exact Or.inr (by rw [h2, h1])
          · exact Or.inr h2

/-- A stage whose first working-set asset is of the initial type binds
the generate slot to itself. -/
lemma runStage_processed_genSlot (st : PState) (t : Transformer) (ity : String)
    (a : Asset) (rest : List Asset) (d r : List Asset) (st' : PState)
    (hty : a.type = ity) (h : runStage st t ity (a :: rest) = Except.ok (d, r, st')) :
    st'.genSlot = some t := by
  unfold runStage at h
  rw [if_neg (by simp [hty])] at h
  cases hrt : runTransformer st a t with
  | error e => rw [hrt] at h; exact absurd h (by simp)
  | ok x =>
    rcases x with ⟨a2, results, st1, n⟩
    rw [hrt] at h
    dsimp only at h
    cases hrest : runStage st1 t ity rest with
    | error e => rw [hrest] at h; exact absurd h (by simp)
    | ok y =>
      rcases y with ⟨div, res, st2⟩
      rw [hrest] at h
      dsimp only at h
      rw [← (exceptOk3_inj h).2.2]
      have h1 : st1.genSlot = some t := runTransformer_genSlot st a t a2 results st1 n hrt
      rcases runStage_genSlot t ity rest st1 div res st2 hrest with h2 | h2
      · rw [h2, h1]
      · exact h2

/-- The stage loop never clears a bound generate slot. -/
lemma transformLoop_genSlot (ity : String) (ts : List Transformer) :
    ∀ (st : PState) (fs ws fs' ws' : List Asset) (st' : PState),
      transformLoop st ity fs ws ts = Except.ok (fs', ws', st') →
      st.genSlot.isSome → st'.genSlot.isSome := by
  induction ts with
  | nil =>
    intro st fs ws fs' ws' st' h hsome
    rw [← (exceptOk3_inj h).2.2]
    exact hsome
  | cons t ts ih =>
    intro st fs ws fs' ws' st' h hsome
    unfold transformLoop at h
    cases hstage : runStage st t ity ws with
    | error e => rw [hstage] at h; exact absurd h (by simp)
    | ok x =>
      rcases x with ⟨div, res, st1⟩
      rw [hstage] at h
      dsimp only at h
      have h1 : st1.genSlot.isSome := by
        rcases runStage_genSlot t ity ws st div res st1 hstage with h2 | h2
        · rw [h2]; exact hsome
        · rw [h2]; rfl
      exact ih st1 (fs ++ div) res fs' ws' st' h h1

/-- C7: a stage that finds an AST it cannot reuse while the remembered
generate closure wraps a transformer without a `generate` hook fails with
the AST-reuse-mismatch error; the end-of-pipeline `finalize` of an asset
still carrying an AST fails the same way when the remembered transformer
has no `generate`; and a non-empty pipeline always reaches `finalize`
with a bound generate slot (the initial asset is always processed by the
first stage), so the silently-skipping branches guarded on an unset slot
are unreachable in full runs. -/
theorem c7_ast_reuse_mismatch_is_fatal :
    (∀ (st : PState) (asset : Asset) (t gt : Transformer) (v : Nat),
      asset.ast = some v →
      (t.canReuseAST = none ∨ ∃ can, t.canReuseAST = some can ∧ can v = false) →
      st.genSlot = some gt → gt.generate = none →
      runTransformer st asset t = Except.error TError.astReuseMismatch) ∧
    (∀ (asset : Asset) (gt : Transformer) (v : Nat),
      asset.ast = some v → gt.generate = none →
      finalizeAsset asset (some gt) = Except.error TError.astReuseMismatch) ∧
    (∀ (t : Transformer) (ts : List Transformer) (a0 : Asset)
      (outs : List Asset) (pst : PState),
      pipelineTransform (t :: ts) a0 = Except.ok (outs, pst) →
      pst.genSlot.isSome) := by
  refine ⟨?_, ?_, ?_⟩
  · intro st asset t gt v hast hcannot hslot hgen
    have hcond : (match t.canReuseAST with
        | none => true
        | some can => ! can v) = true := by
      rcases hcannot with h | ⟨can, hcan, hfalse⟩
      · rw [h]
      · rw [hcan]
        show (! can v) = true
        rw [hfalse]
        rfl
    have hrec : reconcileAST st asset t = Except.error TError.astReuseMismatch := by
      unfold reconcileAST callGenerate
      simp only [hast, hslot, hgen, if_pos hcond]
    unfold runTransformer
    rw [hrec]
  · intro asset gt v hast hgen
    unfold finalizeAsset callGenerate
    simp only [hast, hgen]
  · intro t ts a0 outs pst h
    unfold pipelineTransform at h
    rw [if_neg (by simp)] at h
    cases hloop : transformLoop { genSlot := none, postSlot := none }
        a0.type [] [a0] (t :: ts) with
    | error e => rw [hloop] at h; exact absurd h (by simp)
    | ok x =>
      rcases x with ⟨finals, lastRes, st⟩
      rw [hloop] at h
      dsimp only at h
      have hst : pst = st := by
        cases hm : (finals ++ lastRes).mapM (fun a => finalizeAsset a st.genSlot) with
        | error e => rw [hm] at h; exact absurd h (by simp)
        | ok outs' =>
          rw [hm] at h
          exact ((exceptOk2_inj h).2).symm
      unfold transformLoop at hloop
      cases hstage : runStage { genSlot := none, postSlot := none } t a0.type [a0] with
      | error e => rw [hstage] at hloop; exact absurd hloop (by simp)
      | ok y =>
        rcases y with ⟨div, res, st1⟩
        rw [hstage] at hloop
        have h1 : st1.genSlot = some t :=
          runStage_processed_genSlot _ t a0.type a0 [] div res st1 rfl hstage
        rw [hst]
        exact transformLoop_genSlot a0.type ts st1 ([] ++ div) res finals lastRes st
          hloop (by rw [h1]; rfl)

/-- Witness for `c7_ast_reuse_mismatch_is_fatal` at concrete inputs. -/
theorem c7_ast_reuse_mismatch_witness :
    runTransformer { genSlot := some tNoReuse, postSlot := none } assetAst tNoReuse =
      Except.error TError.astReuseMismatch ∧
    finalizeAsset assetAst (some tNoReuse) = Except.error TError.astReuseMismatch ∧
    (({ genSlot := some tIdent, postSlot := none } : PState)).genSlot.isSome := by
  refine ⟨?_, ?_, ?_⟩
  · exact c7_ast_reuse_mismatch_is_fatal.1 { genSlot := some tNoReuse, postSlot := none }
      assetAst tNoReuse tNoReuse 7 rfl (Or.inl rfl) rfl rfl
  · exact c7_ast_reuse_mismatch_is_fatal.2.1 assetAst tNoReuse 7 rfl rfl
  · exact c7_ast_reuse_mismatch_is_fatal.2.2 tIdent [] assetTs
      [createChildAsset assetTs { type := "ts", content := "c1", ast := none }]
      { genSlot := some tIdent, postSlot := none } rfl

/-- `stateGrows` is reflexive. -/
lemma stateGrows_refl (st : TState) : stateGrows st st :=
  ⟨⟨[], rfl⟩, ⟨[], (List.append_nil _).symm⟩, ⟨[], (List.append_nil _).symm⟩⟩

/-- `stateGrows` is transitive. -/
lemma stateGrows_trans {s1 s2 s3 : TState} (h1 : stateGrows s1 s2)
    (h2 : stateGrows s2 s3) : stateGrows s1 s3 := by
  obtain ⟨⟨c1, hc1⟩, ⟨m1, hm1⟩, ⟨t1, ht1⟩⟩ := h1
  obtain ⟨⟨c2, hc2⟩, ⟨m2, hm2⟩, ⟨t2, ht2⟩⟩ := h2
  refine ⟨⟨c2 ++ c1, ?_⟩, ⟨m1 ++ m2, ?_⟩, ⟨t1 ++ t2, ?_⟩⟩
  · rw [hc2, hc1, List.append_assoc]
  · rw [hm2, hm1, List.append_assoc]
  · rw [ht2, ht1, List.append_assoc]

/-- Cache entries survive state growth. -/
lemma stateGrows_cache_mem {st st' : TState} (h : stateGrows st st')
    {x : CacheKey × List Asset} (hx : x ∈ st.cache) : x ∈ st'.cache := by
  obtain ⟨⟨c, hc⟩, _, _⟩ := h
  rw [hc]
  exact List.mem_append.mpr (Or.inr hx)

/-- Commit-log entries survive state growth. -/
lemma stateGrows_commit_mem {st st' : TState} (h : stateGrows st st')
    {i : String} (hi : i ∈ st.commitLog) : i ∈ st'.commitLog := by
  obtain ⟨_, ⟨m, hm⟩, _⟩ := h
  rw [hm]
  exact List.mem_append.mpr (Or.inl hi)

/-- Transform-log entries survive state growth. -/
lemma stateGrows_transformLog_mem {st st' : TState} (h : stateGrows st st')
    {i : String} (hi : i ∈ st.transformLog) : i ∈ st'.transformLog := by
  obtain ⟨_, _, ⟨t, ht⟩⟩ := h
  rw [ht]
  exact List.mem_append.mpr (Or.inl hi)

/-- `readFromCache` only touches the getCode log. -/
lemma readFromCache_snd_grows (opts : Opts) (st : TState) (assets : List Asset)
    (configs : List (String × Config)) :
    stateGrows st (readFromCache opts st assets configs).2 := by
  unfold readFromCache
  by_cases h : (opts.cacheEnabled = false ∨ opts.reqCode.isSome = true)
  · rw [if_pos h]
    exact stateGrows_refl st
  · rw [if_neg h]
    dsimp only
    cases hl : List.lookup (getCacheKey opts assets configs) st.cache with
    | some cached =>
      exact ⟨⟨[], rfl⟩, ⟨[], (List.append_nil _).symm⟩, ⟨[], (List.append_nil _).symm⟩⟩
    | none =>
      exact stateGrows_refl st

/-- `writeToCache` conses one cache entry and appends the commits. -/
lemma writeToCache_grows (opts : Opts) (st : TState) (assets : List Asset)
    (configs : List (String × Config)) :
    stateGrows st (writeToCache opts st assets configs) := by
  refine ⟨⟨[(getCacheKey opts assets configs, assets)], ?_⟩,
    ⟨assets.map (fun a => a.id), ?_⟩, ⟨[], ?_⟩⟩
  · rfl
  · rfl
  · exact (List.append_nil _).symm

/-- `postPhase` only grows the state. -/
lemma postPhase_snd_grows (opts : Opts) (st : TState)
    (configs : List (String × Config)) (slot : Transformer × Asset)
    (assets finalAssets : List Asset) :
    stateGrows st (postPhase opts st configs slot assets finalAssets).2 := by
  unfold postPhase
  have hg := readFromCache_snd_grows opts st finalAssets configs
  cases hr : readFromCache opts st finalAssets configs with
  | mk entry st1 =>
    rw [hr] at hg
    cases entry with
    | some cached => exact hg
    | none => exact stateGrows_trans hg (writeToCache_grows opts st1 _ configs)

/-- Dispatch only grows the state, provided the recursive call does. -/
lemma dispatchWith_grows
    (recur : TState → Pipeline → Asset → Except TError (List Asset × TState))
    (loadP : String → Pipeline) (p : Pipeline) (ity fp : String)
    (hrec : ∀ st np a res st', recur st np a = Except.ok (res, st') →
      stateGrows st st')
    (l : List Asset) :
    ∀ (st : TState) (res : List Asset) (st' : TState),
      dispatchWith recur loadP p ity fp st l = Except.ok (res, st') →
      stateGrows st st' := by
  induction l with
  | nil =>
    intro st res st' h
    rw [← (exceptOk2_inj h).2]
    exact stateGrows_refl st
  | cons a rest ih =>
    intro st res st' h
    unfold dispatchWith at h
    by_cases hty : a.type ≠ ity
    · simp only [if_pos hty] at h
      by_cases hid : (loadP (nextFilePath fp a.type)).pid = p.pid
      · simp only [if_pos hid] at h
        cases hd : dispatchWith recur loadP p ity fp st rest with
        | error e => rw [hd] at h; exact absurd h (by simp)
        | ok x =>
          rcases x with ⟨restRes, st1⟩
          rw [hd] at h
          dsimp only at h
          rw [← (exceptOk2_inj h).2]
          exact ih st restRes st1 hd
      · simp only [if_neg hid] at h
        cases hr : recur st (loadP (nextFilePath fp a.type)) a with
        | error e => rw [hr] at h; exact absurd h (by simp)
        | ok x =>
          rcases x with ⟨res1, st1⟩
          rw [hr] at h
          dsimp only at h
          cases hd : dispatchWith recur loadP p ity fp st1 rest with
          | error e => rw [hd] at h; exact absurd h (by simp)
          | ok y =>
            rcases y with ⟨restRes, st2⟩
            rw [hd] at h
            dsimp only at h
            rw [← (exceptOk2_inj h).2]
            exact stateGrows_trans (hrec st _ a res1 st1 hr) (ih st1 restRes st2 hd)
    · simp only [if_neg hty] at h
      cases hd : dispatchWith recur loadP p ity fp st rest with
      | error e => rw [hd] at h; exact absurd h (by simp)
      | ok x =>
        rcases x with ⟨restRes, st1⟩
        rw [hd] at h
        dsimp only at h
        rw [← (exceptOk2_inj h).2]
        exact ih st restRes st1 hd

/-- A whole `runPipeline` run only grows the state. -/
lemma runPipeline_grows (opts : Opts) (loadP : String → Pipeline) :
    ∀ (fuel : Nat) (st : TState) (p : Pipeline) (a : Asset)
      (res : List Asset) (st' : TState),
      runPipeline opts loadP fuel st p a = Except.ok (res, st') →
      stateGrows st st' := by
  intro fuel
  induction fuel with
  | zero => intro st p a res st' h; exact absurd h (by simp [runPipeline])
  | succ fuel ih =>
    intro st p a res st' h
    unfold runPipeline at h
    dsimp only at h
    have hg1 := readFromCache_snd_grows opts st [a] p.configs
    cases hfr : readFromCache opts st [a] p.configs with
    | mk entryOpt st1 =>
      rw [hfr] at h hg1
      cases entryOpt with
      | some cached =>
        dsimp only at h
        cases hd : dispatchWith (runPipeline opts loadP fuel) loadP p a.type
            a.filePath st1 cached with
        | error e => rw [hd] at h; exact absurd h (by simp)
        | ok x =>
          rcases x with ⟨finalAssets, st3⟩
          rw [hd] at h
          dsimp only at h
          have hg2 : stateGrows st1 st3 :=
            dispatchWith_grows _ loadP p a.type a.filePath
              (fun s np b r s' hr => ih s np b r s' hr) cached st1 finalAssets st3 hd
          rw [← (exceptOk2_inj h).2]
          exact stateGrows_trans hg1 hg2
      | none =>
        dsimp only at h
        cases hpt : pipelineTransform p.transformers a with
        | error e => rw [hpt] at h; exact absurd h (by simp)
        | ok x =>
          rcases x with ⟨assets, pst⟩
          rw [hpt] at h
          dsimp only at h
          have hg2a : stateGrows st1
              { st1 with transformLog := st1.transformLog ++ [a.id] } := by
            refine ⟨⟨[], ?_⟩, ⟨[], ?_⟩, ⟨[a.id], ?_⟩⟩
            · rfl
            · exact (List.append_nil _).symm
            · rfl
          have hg2 : stateGrows st1
              (writeToCache opts
                { st1 with transformLog := st1.transformLog ++ [a.id] } assets
                p.configs) :=
            stateGrows_trans hg2a (writeToCache_grows opts _ assets p.configs)
          cases hd : dispatchWith (runPipeline opts loadP fuel) loadP p a.type
              a.filePath
              (writeToCache opts
                { st1 with transformLog := st1.transformLog ++ [a.id] } assets
                p.configs) assets with
          | error e => rw [hd] at h; exact absurd h (by simp)
          | ok y =>
            rcases y with ⟨finalAssets, st3⟩
            rw [hd] at h
            dsimp only at h
            have hg3 : stateGrows st st3 :=
              stateGrows_trans hg1 (stateGrows_trans hg2
                (dispatchWith_grows _ loadP p a.type a.filePath
                  (fun s np b r s' hr => ih s np b r s' hr) assets _ finalAssets st3 hd))
            cases hps : pst.postSlot with
            | none =>
              rw [hps] at h
              dsimp only at h
              rw [← (exceptOk2_inj h).2]
              exact hg3
            | some slot =>
              rw [hps] at h
              dsimp only at h
              have hg4 := postPhase_snd_grows opts st3 p.configs slot assets finalAssets
              cases hpp : postPhase opts st3 p.configs slot assets finalAssets with
              | mk resP stP =>
                rw [hpp] at h hg4
                rw [← (exceptOk2_inj h).2]
                exact stateGrows_trans hg3 hg4

/-- Dispatch is the identity on a working set whose types all equal the
initial type. -/
lemma dispatchWith_same_type
    (recur : TState → Pipeline → Asset → Except TError (List Asset × TState))
    (loadP : String → Pipeline) (p : Pipeline) (ity fp : String) (l : List Asset)
    (hall : ∀ x ∈ l, x.type = ity) :
    ∀ st, dispatchWith recur loadP p ity fp st l = Except.ok (l, st) := by
  induction l with
  | nil => intro st; rfl
  | cons a rest ih =>
    intro st
    unfold dispatchWith
    have hty : ¬ (a.type ≠ ity) := by
      simp [hall a (List.mem_cons_self a rest)]
    simp only [if_neg hty]
    rw [ih (fun x hx => hall x (List.mem_cons_of_mem a hx)) st]

/-- On a pre-pipeline cache miss, `runPipeline` runs the transform and
writes its result to the cache keyed over that result; the write and the
commits and the transform invocation survive to the final state. -/
lemma runPipeline_miss_writes (opts : Opts) (loadP : String → Pipeline)
    (fuel : Nat) (st : TState) (p : Pipeline) (a : Asset)
    (assets₁ : List Asset) (pst : PState) (res : List Asset) (st' : TState)
    (hread : readFromCache opts st [a] p.configs = (none, st))
    (hpt : pipelineTransform p.transformers a = Except.ok (assets₁, pst))
    (h : runPipeline opts loadP (fuel + 1) st p a = Except.ok (res, st')) :
    (getCacheKey opts assets₁ p.configs, assets₁) ∈ st'.cache ∧
    (∀ x ∈ assets₁, x.id ∈ st'.commitLog) ∧
    a.id ∈ st'.transformLog := by
  unfold runPipeline at h
  dsimp only at h
  rw [hread] at h
  dsimp only at h
  rw [hpt] at h
  dsimp only at h
  have hmem : (getCacheKey opts assets₁ p.configs, assets₁) ∈
      (writeToCache opts { st with transformLog := st.transformLog ++ [a.id] }
        assets₁ p.configs).cache :=
    List.mem_cons_self _ _
  have hcommit : ∀ x ∈ assets₁, x.id ∈
      (writeToCache opts { st with transformLog := st.transformLog ++ [a.id] }
        assets₁ p.configs).commitLog := by
    intro x hx
    exact List.mem_append.mpr (Or.inr (List.mem_map_of_mem _ hx))
  have htl : a.id ∈
      (writeToCache opts { st with transformLog := st.transformLog ++ [a.id] }
        assets₁ p.configs).transformLog :=
    List.mem_append.mpr (Or.inr (List.mem_singleton.mpr rfl))
  cases hd : dispatchWith (runPipeline opts loadP fuel) loadP p a.type a.filePath
      (writeToCache opts { st with transformLog := st.transformLog ++ [a.id] }
        assets₁ p.configs) assets₁ with
  | error e => rw [hd] at h; exact absurd h (by simp)
  | ok x =>
    rcases x with ⟨finalAssets, st3⟩
    rw [hd] at h
    dsimp only at h
    have hg23 : stateGrows
        (writeToCache opts { st with transformLog := st.transformLog ++ [a.id] }
          assets₁ p.configs) st3 :=
      dispatchWith_grows _ loadP p a.type a.filePath
        (fun s np b r s' hr => runPipeline_grows opts loadP fuel s np b r s' hr)
        assets₁ _ finalAssets st3 hd
    cases hps : pst.postSlot with
    | none =>
      rw [hps] at h
      dsimp only at h
      rw [← (exceptOk2_inj h).2]
      exact ⟨stateGrows_cache_mem hg23 hmem,
        fun x hx => stateGrows_commit_mem hg23 (hcommit x hx),
        stateGrows_transformLog_mem hg23 htl⟩
    | some slot =>
      rw [hps] at h
      dsimp only at h
      have hg4 := postPhase_snd_grows opts st3 p.configs slot assets₁ finalAssets
      cases hpp : postPhase opts st3 p.configs slot assets₁ finalAssets with
      | mk resP stP =>
        rw [hpp] at h hg4
        rw [← (exceptOk2_inj h).2]
        have hg := stateGrows_trans hg23 hg4
        exact ⟨stateGrows_cache_mem hg hmem,
          fun x hx => stateGrows_commit_mem hg (hcommit x hx),
          stateGrows_transformLog_mem hg htl⟩

/-- C6: a disabled cache or an inline-code request makes every cache read
(both the pre-pipeline and the pre-postProcess lookup) report a miss
without touching the state, while on the success path the cache write
still occurs — the transform result is committed and stored under its
computed key. -/
theorem c6_disabled_cache_skips_reads_not_writes (opts : Opts)
    (hdis : opts.cacheEnabled = false ∨ opts.reqCode.isSome = true) :
    (∀ (st : TState) (assets : List Asset) (cfg : List (String × Config)),
      readFromCache opts st assets cfg = (none, st)) ∧
    (∀ (loadP : String → Pipeline) (fuel : Nat) (st : TState) (p : Pipeline)
      (a : Asset) (assets₁ : List Asset) (pst : PState) (res : List Asset)
      (st' : TState),
      pipelineTransform p.transformers a = Except.ok (assets₁, pst) →
      runPipeline opts loadP (fuel + 1) st p a = Except.ok (res, st') →
      (getCacheKey opts assets₁ p.configs, assets₁) ∈ st'.cache ∧
      ∀ x ∈ assets₁, x.id ∈ st'.commitLog) := by
  have hread : ∀ (st : TState) (assets : List Asset) (cfg : List (String × Config)),
      readFromCache opts st assets cfg = (none, st) := by
    intro st assets cfg
    unfold readFromCache
    rw [if_pos hdis]
  refine ⟨hread, ?_⟩
  intro loadP fuel st p a assets₁ pst res st' hpt h
  have hm := runPipeline_miss_writes opts loadP fuel st p a assets₁ pst res st'
    (hread st [a] p.configs) hpt h
  exact ⟨hm.1, hm.2.1⟩

/-- Witness for `c6_disabled_cache_skips_reads_not_writes` on a concrete
cache-disabled run. -/
theorem c6_disabled_cache_witness :
    readFromCache optsNoCache stHit [assetTs] [] = (none, stHit) ∧
    ((getCacheKey optsNoCache [childTs] pTs.configs, [childTs]) ∈ stF6.cache ∧
      ∀ x ∈ [childTs], x.id ∈ stF6.commitLog) := by
  refine ⟨?_, ?_⟩
  · exact (c6_disabled_cache_skips_reads_not_writes optsNoCache (Or.inl rfl)).1
      stHit [assetTs] []
  · exact (c6_disabled_cache_skips_reads_not_writes optsNoCache (Or.inl rfl)).2
      (fun _ => pTs) 0 stEmpty pTs assetTs [childTs]
      { genSlot := some tIdent, postSlot := none } [childTs] stF6 rfl rfl

/-- C5, counterexample: on a pre-pipeline cache hit `readFromCache` calls
`getCode` on the lookup-key assets (the initial asset, id `a1`), not on
the cached assets (id `a2`); and on a miss the result is written under
the key computed from the result assets, not under the lookup key — a
pipeline returning two children leaves nothing stored under the initial
lookup key. -/
theorem c5_cache_lookup_counterexample :
    (runPipeline optsCache (fun _ => pTs) 1 stHit pTs assetTs =
        Except.ok ([assetJs], { stHit with getCodeLog := ["a1"] }) ∧
      assetJs.id = "a2" ∧ ("a2" : String) ∉ ["a1"]) ∧
    (runPipeline optsCache (fun _ => pTs) 1 stEmpty pDup assetTs =
        Except.ok ([childDup, childDup], stDup) ∧
      stDup.cache.lookup (getCacheKey optsCache [assetTs] pDup.configs) = none) := by
  refine ⟨⟨?_, rfl, by decide⟩, ⟨?_, by decide⟩⟩
  · rfl
  · rfl

/-- C5 (amended: on a hit, the side-effect `getCode` materializes the
code of the assets forming the lookup key — here the initial asset — not
of the cached assets; on a miss, the transform result is written to the
cache under the key computed from the result assets and configs, which
need not equal the lookup key): a hit uses the cached array as the
pipeline result without invoking `pipeline.transform`; a miss runs the
transform, records the invocation, and stores the result. -/
theorem c5_pre_pipeline_cache (opts : Opts) (loadP : String → Pipeline)
    (fuel : Nat) (st : TState) (p : Pipeline) (a : Asset)
    (hen : opts.cacheEnabled = true) (hcode : opts.reqCode = none) :
    (∀ cached, st.cache.lookup (getCacheKey opts [a] p.configs) = some cached →
      (∀ x ∈ cached, x.type = a.type) →
      runPipeline opts loadP (fuel + 1) st p a =
        Except.ok (cached, { st with getCodeLog := st.getCodeLog ++ [a.id] })) ∧
    (st.cache.lookup (getCacheKey opts [a] p.configs) = none →
      ∀ (assets₁ : List Asset) (pst : PState) (res : List Asset) (st' : TState),
        pipelineTransform p.transformers a = Except.ok (assets₁, pst) →
        runPipeline opts loadP (fuel + 1) st p a = Except.ok (res, st') →
        (getCacheKey opts assets₁ p.configs, assets₁) ∈ st'.cache ∧
        a.id ∈ st'.transformLog) := by
  have hguard : ¬ (opts.cacheEnabled = false ∨ opts.reqCode.isSome = true) := by
    rw [hen, hcode]
    simp
  constructor
  · intro cached hl hall
    have hread : readFromCache opts st [a] p.configs =
        (some cached, { st with getCodeLog := st.getCodeLog ++ [a.id] }) := by
      unfold readFromCache
      rw [if_neg hguard]
      dsimp only
      rw [hl]
      rfl
    unfold runPipeline
    dsimp only
    rw [hread]
    dsimp only
    rw [dispatchWith_same_type (runPipeline opts loadP fuel) loadP p a.type
      a.filePath cached hall _]
  · intro hl assets₁ pst res st' hpt h
    have hread : readFromCache opts st [a] p.configs = (none, st) := by
      unfold readFromCache
      rw [if_neg hguard]
      dsimp only
      rw [hl]
    have hm := runPipeline_miss_writes opts loadP fuel st p a assets₁ pst res st'
      hread hpt h
    exact ⟨hm.1, hm.2.2⟩

/-- Witness for `c5_pre_pipeline_cache` on concrete hit and miss runs. -/
theorem c5_pre_pipeline_cache_witness :
    runPipeline optsCache (fun _ => pJs) 1 stHitTs pTs assetTs =
      Except.ok ([childDup], { stHitTs with getCodeLog := ["a1"] }) ∧
    ((getCacheKey optsCache [childDup, childDup] pDup.configs,
        [childDup, childDup]) ∈ stDup.cache ∧
      assetTs.id ∈ stDup.transformLog) := by
  constructor
  · have h := (c5_pre_pipeline_cache optsCache (fun _ => pJs) 0 stHitTs pTs assetTs
      rfl rfl).1 [childDup] rfl (by decide)
    simpa using h
  · exact (c5_pre_pipeline_cache optsCache (fun _ => pTs) 0 stEmpty pDup assetTs
      rfl rfl).2 rfl [childDup, childDup]
      { genSlot := some tDup, postSlot := none } [childDup, childDup] stDup rfl rfl

/-- C8, counterexample: on a post-process cache miss the result is
written under the key computed from the postProcess result list, not
under the finalized-assets key — after the write, a lookup under the
finalized-assets key still misses while the result key hits. -/
theorem c8_write_key_counterexample :
    (postPhase optsCache stEmpty [] (tPost, assetTs) [childTs] [childTs]).2.cache.lookup
        (getCacheKey optsCache [childTs] []) = none ∧
    (postPhase optsCache stEmpty [] (tPost, assetTs) [childTs] [childTs]).2.cache.lookup
        (getCacheKey optsCache [childCss] []) = some [childCss] ∧
    getCacheKey optsCache [childCss] [] ≠ getCacheKey optsCache [childTs] [] := by
  refine ⟨by decide, by decide, by decide⟩

/-- C8 (amended: on a miss the postProcess result — or `[]` when it is
null — is committed and cached under the key computed from that result
list plus configs, not under the finalized-assets key): the second lookup
is keyed over the finalized asset list plus configs; on a hit the cached
list is returned (with `getCode` called on the finalized key assets); on
a miss `postProcess` is invoked with the pre-dispatch asset list `assets`
(the direct output of `pipeline.transform`), and the defaulted result is
what the post phase — and hence `runPipeline` — returns. -/
theorem c8_post_process_phase (opts : Opts) (st : TState)
    (cfg : List (String × Config)) (slot : Transformer × Asset)
    (assets finals : List Asset) :
    (∀ cached, opts.cacheEnabled = true → opts.reqCode = none →
      st.cache.lookup (getCacheKey opts finals cfg) = some cached →
      postPhase opts st cfg slot assets finals =
        (cached,
          { st with getCodeLog := st.getCodeLog ++ finals.map (fun x => x.id) })) ∧
    (readFromCache opts st finals cfg = (none, st) →
      postPhase opts st cfg slot assets finals =
        ((callPostProcess slot assets).getD [],
          { st with
            commitLog := st.commitLog ++
              ((callPostProcess slot assets).getD []).map (fun x => x.id),
            cache := (getCacheKey opts ((callPostProcess slot assets).getD []) cfg,
              (callPostProcess slot assets).getD []) :: st.cache })) := by
  constructor
  · intro cached hen hcode hl
    have hguard : ¬ (opts.cacheEnabled = false ∨ opts.reqCode.isSome = true) := by
      rw [hen, hcode]
      simp
    have hread : readFromCache opts st finals cfg =
        (some cached,
          { st with getCodeLog := st.getCodeLog ++ finals.map (fun x => x.id) }) := by
      unfold readFromCache
      rw [if_neg hguard]
      dsimp only
      rw [hl]
    unfold postPhase
    rw [hread]
  · intro hread
    unfold postPhase
    rw [hread]
    rfl

/-- Witness for `c8_post_process_phase` on a concrete hit and a concrete
miss. -/
theorem c8_post_process_phase_witness :
    postPhase optsCache
        { cache := [(getCacheKey optsCache [childTs] [], [assetJs])]
          getCodeLog := [], commitLog := [], transformLog := [] }
        [] (tPost, assetTs) [childTs] [childTs] =
      ([assetJs],
        { cache := [(getCacheKey optsCache [childTs] [], [assetJs])]
          getCodeLog := ["a1:ts"], commitLog := [], transformLog := [] }) ∧
    postPhase optsCache stEmpty [] (tPost, assetTs) [childTs] [childTs] =
      ([childCss],
        { stEmpty with
          commitLog := ["a1:css"]
          cache := [(getCacheKey optsCache [childCss] [], [childCss])] }) := by
  constructor
  · have h := (c8_post_process_phase optsCache
      { cache := [(getCacheKey optsCache [childTs] [], [assetJs])]
        getCodeLog := [], commitLog := [], transformLog := [] }
      [] (tPost, assetTs) [childTs] [childTs]).1 [assetJs] rfl rfl rfl
    simpa using h
  · have h := (c8_post_process_phase optsCache stEmpty [] (tPost, assetTs)
      [childTs] [childTs]).2 rfl
    simpa using h

/-- C10, counterexample: the `...opts` spread comes after the
`isURL: true, isAsync: true` defaults, so explicit `opts` fields override
them — with `opts = {isURL: false}` the single added dependency is not
marked `isURL`. -/
theorem c10_opts_override_counterexample :
    ((addURLDependency (fun _ => false) (fun s => { pathname := some s, rest := "r" })
        (fun pu => pu.pathname.getD "") (fun s => s) (fun _ => "DEP") [] "x"
        { isURL := some false }).2.map (fun d => d.isURL)) = [false] := by
  decide

/-- C10 (amended: the added dependency's `isURL` and `isAsync` flags
default to true but any explicitly passed `opts` field overrides the
default, as does `moduleSpecifier`): absolute URLs and URLs whose parsed
pathname is null are returned unchanged with the dependency list
untouched; otherwise exactly one dependency is appended and the returned
string is the URL re-serialized with its pathname replaced by that
dependency's id. -/
theorem c10_addURLDependency_spec (isURLFn : String → Bool)
    (urlParse : String → ParsedURL) (urlFormat : ParsedURL → String)
    (decodeComp : String → String) (idOf : DepOptions → String)
    (deps : List DepOptions) (url : String) (opts : DepOptsPatch) :
    (isURLFn url = true →
      addURLDependency isURLFn urlParse urlFormat decodeComp idOf deps url opts =
        (url, deps)) ∧
    (isURLFn url = false → (urlParse url).pathname = none →
      addURLDependency isURLFn urlParse urlFormat decodeComp idOf deps url opts =
        (url, deps)) ∧
    (∀ pn, isURLFn url = false → (urlParse url).pathname = some pn →
      addURLDependency isURLFn urlParse urlFormat decodeComp idOf deps url opts =
        (urlFormat { urlParse url with
            pathname := some (idOf (mergedDepOpts decodeComp pn opts)) },
          deps ++ [mergedDepOpts decodeComp pn opts]) ∧
      (mergedDepOpts decodeComp pn opts).moduleSpecifier =
        opts.moduleSpecifier.getD (decodeComp pn) ∧
      (mergedDepOpts decodeComp pn opts).isURL = opts.isURL.getD true ∧
      (mergedDepOpts decodeComp pn opts).isAsync = opts.isAsync.getD true) := by
  refine ⟨?_, ?_, ?_⟩
  · intro h
    unfold addURLDependency
    rw [if_pos h]
  · intro h hpn
    unfold addURLDependency
    rw [if_neg (by rw [h]; simp)]
    dsimp only
    rw [hpn]
  · intro pn h hpn
    refine ⟨?_, rfl, rfl, rfl⟩
    unfold addURLDependency
    rw [if_neg (by rw [h]; simp)]
    dsimp only
    rw [hpn]
    rfl

/-- Witness for `c10_addURLDependency_spec` on concrete collaborators. -/
theorem c10_addURLDependency_witness :
    addURLDependency (fun _ => true) (fun s => { pathname := some s, rest := "r" })
        (fun pu => pu.pathname.getD "") (fun s => s) (fun _ => "DEP") [] "http:x"
        { isURL := some false } = ("http:x", []) ∧
    addURLDependency (fun _ => false) (fun _ => { pathname := none, rest := "r" })
        (fun pu => pu.pathname.getD "") (fun s => s) (fun _ => "DEP") [] "u"
        {} = ("u", []) ∧
    addURLDependency (fun _ => false) (fun s => { pathname := some s, rest := "r" })
        (fun pu => pu.pathname.getD "") (fun s => s) (fun _ => "DEP") [] "u"
        {} =
      ((fun (pu : ParsedURL) => pu.pathname.getD "")
          { pathname := some ((fun (_ : DepOptions) => "DEP")
              (mergedDepOpts (fun s => s) "u" {})), rest := "r" },
        [] ++ [mergedDepOpts (fun s => s) "u" {}]) := by
  refine ⟨?_, ?_, ?_⟩
  · exact (c10_addURLDependency_spec (fun _ => true)
      (fun s => { pathname := some s, rest := "r" }) (fun pu => pu.pathname.getD "")
      (fun s => s) (fun _ => "DEP") [] "http:x" { isURL := some false }).1 rfl
  · exact (c10_addURLDependency_spec (fun _ => false)
      (fun _ => { pathname := none, rest := "r" }) (fun pu => pu.pathname.getD "")
      (fun s => s) (fun _ => "DEP") [] "u" {}).2.1 rfl rfl
  · exact ((c10_addURLDependency_spec (fun _ => false)
      (fun s => { pathname := some s, rest := "r" }) (fun pu => pu.pathname.getD "")
      (fun s => s) (fun _ => "DEP") [] "u" {}).2.2 "u" rfl rfl).1

end Parcel
